import Mathlib

/-!
Verification of the multi-backend database client core
(`src-tauri/src/{database,mongodb,redis,main,types}.rs`) against its
natural-language specification.  The Rust drivers are shallowly embedded:
pure computations become Lean functions, the external network clients
(sqlx, mongodb, redis-rs) are modelled by explicit inputs carrying the
replies the code would receive, and fallible steps return `Except`.
-/

namespace DbClient

/-- Model of an IEEE-754 double to the extent the code observes it:
only finiteness and the (rational) value of finite doubles matter to the
normalizers (`serde_json::Number::from_f64` rejects non-finite input). -/
inductive F64 where
  | finite (q : ℚ)
  | nan
  | posInf
  | negInf
deriving DecidableEq, Repr

/-- Model of `serde_json::Value`.  `numI` models an integer-backed
`serde_json::Number` (one built via `From<i32>/From<i64>/From<usize>`, for
which `is_i64()` holds); `numD` models an f64-backed number built by
`Number::from_f64` (for which `is_f64()` holds). -/
inductive Json where
  | null
  | bool (b : Bool)
  | numI (i : ℤ)
  | numD (q : ℚ)
  | str (s : String)
  | arr (xs : List Json)
  | obj (kvs : List (String × Json))
deriving Repr

/-- `serde_json::Number::from_f64`: `some` exactly on finite doubles
(source: `database.rs` line 32, `mongodb.rs` line 162, `redis.rs` line 189). -/
def json_number_from_f64 : F64 → Option Json
  | .finite q => some (.numD q)
  | _ => none

/-- `QueryRow` from `types.rs`: the uniform tabular result. -/
structure QueryRow where
  columns : List String
  types : List String
  rows : List (List Json)
deriving Repr

/-- Model of `sqlx::any::AnyValueKind`: the native value of one cell as the
sqlx Any driver presents it.  `null` is the database-level NULL. -/
inductive AnyValueKind where
  | null
  | bool (b : Bool)
  | smallInt (i : ℤ)
  | integer (i : ℤ)
  | bigInt (i : ℤ)
  | real (f : F64)
  | double (f : F64)
  | text (s : String)
  | blob (bytes : List Nat)
deriving DecidableEq, Repr

/-- Model of the external sqlx Any-driver decode of `Option<i32>`
(`row.try_get::<Option<i32>, _>`): NULL decodes to `none`, integer kinds
decode when they fit in `i32`, every other kind is a type-mismatch error. -/
def try_get_opt_i32 : AnyValueKind → Except String (Option ℤ)
  | .null => .ok none
  | .smallInt i => .ok (some i)
  | .integer i => .ok (some i)
  | .bigInt i =>
      if -(2 ^ 31) ≤ i ∧ i < 2 ^ 31 then .ok (some i) else .error "out of range"
  | _ => .error "unexpected value kind"

/-- Model of the external sqlx Any-driver decode of `bool`. -/
def try_get_bool : AnyValueKind → Except String Bool
  | .bool b => .ok b
  | _ => .error "unexpected value kind"

/-- Model of the external sqlx Any-driver decode of `i32`. -/
def try_get_i32 : AnyValueKind → Except String ℤ
  | .smallInt i => .ok i
  | .integer i => .ok i
  | .bigInt i =>
      if -(2 ^ 31) ≤ i ∧ i < 2 ^ 31 then .ok i else .error "out of range"
  | _ => .error "unexpected value kind"

/-- Model of the external sqlx Any-driver decode of `i64`. -/
def try_get_i64 : AnyValueKind → Except String ℤ
  | .smallInt i => .ok i
  | .integer i => .ok i
  | .bigInt i => .ok i
  | _ => .error "unexpected value kind"

/-- Model of the external sqlx Any-driver decode of `f64`. -/
def try_get_f64 : AnyValueKind → Except String F64
  | .real f => .ok f
  | .double f => .ok f
  | _ => .error "unexpected value kind"

/-- Model of the external sqlx Any-driver decode of `String`. -/
def try_get_string : AnyValueKind → Except String String
  | .text s => .ok s
  | _ => .error "unexpected value kind"

/-- Model of the `Debug` rendering of `sqlx::any::AnyTypeInfo`
(`format!("{:?}", type_info)`), parameterized by the declared type name.
Its exact shape is irrelevant to the claims; only that it is a string. -/
def debug_any_type_info (type_name : String) : String :=
  "AnyTypeInfo(" ++ type_name ++ ")"

/-- `convert_to_json_value` (`database.rs` lines 4-50): normalizes one
relational cell, given the column's declared native type name and the
native value.  `fallback` is the shared tail at lines 45-49 that every
non-returning arm of the `match` falls through to. -/
def convert_to_json_value (type_name : String) (v : AnyValueKind) : Json :=
  if (try_get_opt_i32 v).isOk = false then Json.null
  else
    let fallback : Json :=
      match try_get_string v with
      | .ok s => Json.str s
      | .error _ => Json.str (debug_any_type_info type_name)
    match type_name with
    | "BOOLEAN" | "BOOL" =>
        match try_get_bool v with
        | .ok b => Json.bool b
        | .error _ => fallback
    | "TINYINT" | "SMALLINT" | "INT" | "INTEGER" =>
        match try_get_i32 v with
        | .ok i => Json.numI i
        | .error _ => fallback
    | "BIGINT" =>
        match try_get_i64 v with
        | .ok i => Json.numI i
        | .error _ => fallback
    | "REAL" | "FLOAT" | "DOUBLE" | "DECIMAL" | "NUMERIC" =>
        match try_get_f64 v with
        | .ok f =>
            match json_number_from_f64 f with
            | some j => j
            | none => fallback
        | .error _ => fallback
    | "TEXT" | "VARCHAR" | "CHAR" | "STRING" | "NAME" =>
        match try_get_string v with
        | .ok s => Json.str s
        | .error _ => fallback
    | _ => fallback

/-- The column metadata of one cell of an `sqlx::any::AnyRow`
(`column.name`, `column.type_info`). -/
structure AnyColumnInfo where
  name : String
  typeName : String
deriving DecidableEq, Repr

/-- One cell of a fetched native row: its column metadata and value. -/
structure AnyCell where
  column : AnyColumnInfo
  value : AnyValueKind
deriving DecidableEq, Repr

/-- A fetched `sqlx::any::AnyRow`. -/
abbrev AnyRow := List AnyCell

/-- `DatabaseConnection::execute_query` (`database.rs` lines 99-136), after
the external `fetch_all` returned `rows`: column names and (debug-rendered)
types come from the first row only; every row is normalized cell by cell. -/
def execute_query (rows : List AnyRow) : QueryRow :=
  let first := rows.headD []
  { columns := first.map (fun c => c.column.name)
    types := first.map (fun c => debug_any_type_info c.column.typeName)
    rows := rows.map (fun row =>
      row.map (fun c => convert_to_json_value c.column.typeName c.value)) }

/-! ## Document driver (`mongodb.rs`) -/

/-- Model of `mongodb::bson::Bson` restricted to the constructors the code
distinguishes; `objectId` carries the hex form `to_hex` would produce, and
`other` stands for any remaining BSON variant, carrying its `Debug` text
(the `_` arm of `convert_bson_value`). -/
inductive Bson where
  | null
  | boolean (b : Bool)
  | int32 (i : ℤ)
  | int64 (i : ℤ)
  | double (d : F64)
  | string (s : String)
  | array (xs : List Bson)
  | document (entries : List (String × Bson))
  | objectId (hex : String)
  | other (debugText : String)
deriving Repr

/-- A BSON document: its ordered key/value entries. -/
abbrev BsonDoc := List (String × Bson)

/-- Lexicographic order on character lists (the `Ord` of Rust `String`,
at the level of Unicode scalar values). -/
def chars_lt : List Char → List Char → Bool
  | [], [] => false
  | [], _ :: _ => true
  | _ :: _, [] => false
  | a :: as, b :: bs =>
      if a.toNat < b.toNat then true
      else if b.toNat < a.toNat then false
      else chars_lt as bs

/-- Lexicographic order on strings. -/
def string_lt (a b : String) : Bool := chars_lt a.data b.data

/-- Insertion into a model of `serde_json::Map` (a `BTreeMap`: keys kept in
ascending order, inserting an existing key replaces its value). -/
def map_insert_sorted (m : List (String × Json)) (k : String) (v : Json) :
    List (String × Json) :=
  match m with
  | [] => [(k, v)]
  | (k0, v0) :: rest =>
      if k = k0 then (k, v) :: rest
      else if string_lt k k0 then (k, v) :: (k0, v0) :: rest
      else (k0, v0) :: map_insert_sorted rest k v

/-- `serde_json::Map::get`. -/
def obj_get (m : List (String × Json)) (k : String) : Option Json :=
  (m.find? (fun p => p.1 == k)).map (fun p => p.2)

/-- Building the `serde_json::Map` by inserting entries in document order. -/
def build_json_map (entries : List (String × Json)) : List (String × Json) :=
  entries.foldl (fun m kv => map_insert_sorted m kv.1 kv.2) []

mutual

/-- `convert_bson_value` (`mongodb.rs` lines 156-171). -/
def convert_bson_value : Bson → Json
  | .null => Json.null
  | .boolean b => Json.bool b
  | .int32 i => Json.numI i
  | .int64 i => Json.numI i
  | .double d =>
      match json_number_from_f64 d with
      | some j => j
      | none => Json.null
  | .string s => Json.str s
  | .array xs => Json.arr (convert_bson_list xs)
  | .document d => Json.obj (build_json_map (convert_bson_entries d))
  | .objectId hex => Json.str hex
  | .other debugText => Json.str debugText

/-- The element-wise conversion inside `Bson::Array`. -/
def convert_bson_list : List Bson → List Json
  | [] => []
  | x :: xs => convert_bson_value x :: convert_bson_list xs

/-- The entry-wise conversion of a document's values. -/
def convert_bson_entries : List (String × Bson) → List (String × Json)
  | [] => []
  | (k, v) :: rest => (k, convert_bson_value v) :: convert_bson_entries rest

end

/-- `convert_bson_to_json` (`mongodb.rs` lines 148-154). -/
def convert_bson_to_json (doc : BsonDoc) : Json :=
  Json.obj (build_json_map (convert_bson_entries doc))

/-- `mongo_type_to_string` (`mongodb.rs` lines 173-186).  `numI` models the
i64-backed numbers (`is_i64`), `numD` the f64-backed ones (`is_f64`); the
code's third, u64-only "Number" arm cannot arise from `convert_bson_value`. -/
def mongo_type_to_string : Json → String
  | .null => "Null"
  | .bool _ => "Boolean"
  | .numI _ => "Int64"
  | .numD _ => "Double"
  | .str _ => "String"
  | .arr _ => "Array"
  | .obj _ => "Document"

/-- The entries of the converted document (the `if let Value::Object(obj)`
views at `mongodb.rs` lines 71 and 83; the conversion always yields an
object, so the `else` view is the empty map). -/
def bson_obj_entries (doc : BsonDoc) : List (String × Json) :=
  match convert_bson_to_json doc with
  | .obj m => m
  | _ => []

/-- `doc.get_object_id("_id")`: the hex form of the `_id` entry when it is
an ObjectId, otherwise the `unwrap_or_else` default `"unknown"`
(`mongodb.rs` lines 65-67). -/
def doc_id_hex (doc : BsonDoc) : String :=
  match doc.find? (fun p => p.1 == "_id") with
  | some (_, Bson.objectId hex) => hex
  | _ => "unknown"

/-- The column/type accretion loop over one document's converted entries
(`mongodb.rs` lines 72-79): `_id` is skipped, a key not yet in `columns`
is pushed together with its inferred type label. -/
def accrete (ct : List String × List String) :
    List (String × Json) → List String × List String
  | [] => ct
  | kv :: es =>
      if kv.1 = "_id" then accrete ct es
      else if ct.1.contains kv.1 then accrete ct es
      else accrete (ct.1 ++ [kv.1], ct.2 ++ [mongo_type_to_string kv.2]) es

/-- One iteration of the `find` cursor loop (`mongodb.rs` lines 63-90):
accrete columns from this document, then read every current column out of
it (missing keys become `Null`, `_id` becomes the hex id). -/
def find_step (st : QueryRow) (doc : BsonDoc) : QueryRow :=
  let id := doc_id_hex doc
  let entries := bson_obj_entries doc
  let ct := accrete (st.columns, st.types) entries
  let row := ct.1.map (fun col =>
    if col = "_id" then Json.str id
    else (obj_get entries col).getD Json.null)
  { columns := ct.1, types := ct.2, rows := st.rows ++ [row] }

/-- The whole `find` materialization over the cursor's documents, starting
from the fixed `["_id"]`/`["ObjectId"]` columns (`mongodb.rs` lines 59-96). -/
def mongo_find (docs : List BsonDoc) : QueryRow :=
  docs.foldl find_step ⟨["_id"], ["ObjectId"], []⟩

/-! ### String helpers mirroring the Rust standard library -/

/-- `str::trim_start`. -/
def trim_start (s : String) : String :=
  String.mk (s.data.dropWhile Char.isWhitespace)

/-- The stripping loop of `str::trim_start_matches`: strip the pattern
while it is a prefix.  A nonempty pattern strips at least one character per
round, so `s.length` rounds always suffice. -/
def trim_start_matches_go (pat : List Char) : Nat → List Char → List Char
  | 0, s => s
  | fuel + 1, s =>
      if pat.isPrefixOf s then trim_start_matches_go pat fuel (s.drop pat.length)
      else s

/-- `str::trim_start_matches` on `List Char` (an empty pattern strips
nothing). -/
def trim_start_matches_list (pat : List Char) (s : List Char) : List Char :=
  if pat.isEmpty then s else trim_start_matches_go pat s.length s

/-- `str::trim_start_matches`. -/
def trim_start_matches (pat s : String) : String :=
  String.mk (trim_start_matches_list pat.data s.data)

/-- `str::starts_with` (on the character sequences). -/
def starts_with (s pre : String) : Bool :=
  pre.data.isPrefixOf s.data

/-- `str::trim_end_matches(')')`: strip every trailing `')'`. -/
def trim_end_matches_paren (s : String) : String :=
  String.mk ((s.data.reverse.dropWhile (fun c => c = ')')).reverse)

/-- The first-`'.'` split underlying `str::splitn(2, '.')`. -/
def split_first_dot : List Char → Option (List Char × List Char)
  | [] => none
  | c :: rest =>
      if c = '.' then some ([], rest)
      else (split_first_dot rest).map (fun p => (c :: p.1, p.2))

/-- `mql.splitn(2, '.').collect::<Vec<_>>()`. -/
def splitn2_dot (s : String) : List String :=
  match split_first_dot s.data with
  | none => [s]
  | some (a, b) => [String.mk a, String.mk b]

/-- The tokenizing loop of `str::split_whitespace`; the second argument
accumulates the current token. -/
def split_ws_go : List Char → List Char → List String
  | [], acc => if acc = [] then [] else [String.mk acc]
  | c :: rest, acc =>
      if c.isWhitespace then
        if acc = [] then split_ws_go rest []
        else String.mk acc :: split_ws_go rest []
      else split_ws_go rest (acc ++ [c])

/-- `str::split_whitespace`: whitespace-separated tokens, no empties. -/
def split_whitespace (s : String) : List String :=
  split_ws_go s.data []

/-! ### Model of the external `serde_json` parser for BSON documents

`serde_json::from_str::<mongodb::bson::Document>` parses standard JSON and
requires the top-level value to be an object.  Escape sequences inside
strings are kept verbatim rather than decoded, and integer literals are not
range-checked; no claim depends on either aspect. -/

/-- The JSON whitespace characters. -/
def json_ws (c : Char) : Bool :=
  c = ' ' || c = '\t' || c = '\n' || c = '\r'

/-- Skip JSON whitespace. -/
def skip_ws (s : List Char) : List Char := s.dropWhile json_ws

/-- Parse the remainder of a string literal (opening quote consumed). -/
def parse_string_lit : Nat → List Char → Option (String × List Char)
  | 0, _ => none
  | _ + 1, [] => none
  | fuel + 1, c :: rest =>
      if c = '"' then some ("", rest)
      else if c = '\\' then
        match rest with
        | [] => none
        | e :: rest2 =>
            (parse_string_lit fuel rest2).map (fun p => (String.mk (e :: p.1.data), p.2))
      else (parse_string_lit fuel rest).map (fun p => (String.mk (c :: p.1.data), p.2))

/-- Numeric value of a decimal digit. -/
def digit_val (c : Char) : ℕ := c.toNat - '0'.toNat

/-- Split a leading run of decimal digits. -/
def take_digits (s : List Char) : List Char × List Char :=
  (s.takeWhile Char.isDigit, s.dropWhile Char.isDigit)

/-- The natural number denoted by a digit run. -/
def digits_to_nat (ds : List Char) : ℕ :=
  ds.foldl (fun a c => a * 10 + digit_val c) 0

/-- The double denoted by sign, integer digits, fraction digits, exponent. -/
def make_double (neg : Bool) (ip fd : List Char) (e : ℤ) : Bson :=
  let mag : ℚ :=
    (digits_to_nat (ip ++ fd) : ℚ) / (10 : ℚ) ^ fd.length * (10 : ℚ) ^ e
  Bson.double (F64.finite (if neg then -mag else mag))

/-- Parse an exponent tail (the part after `e`/`E`). -/
def parse_exp_tail (s : List Char) : Option (ℤ × List Char) :=
  let (sign, s1) : ℤ × List Char :=
    match s with
    | '+' :: t => (1, t)
    | '-' :: t => (-1, t)
    | _ => (1, s)
  let (ed, s2) := take_digits s1
  if ed = [] then none else some (sign * (digits_to_nat ed : ℤ), s2)

/-- Parse a JSON number literal. -/
def parse_number (s : List Char) : Option (Bson × List Char) :=
  let (neg, s1) : Bool × List Char :=
    match s with
    | '-' :: t => (true, t)
    | _ => (false, s)
  let (ip, s2) := take_digits s1
  if ip = [] then none
  else
    match s2 with
    | '.' :: t =>
        let (fd, s3) := take_digits t
        if fd = [] then none
        else
          match s3 with
          | 'e' :: t2 =>
              (parse_exp_tail t2).map (fun p => (make_double neg ip fd p.1, p.2))
          | 'E' :: t2 =>
              (parse_exp_tail t2).map (fun p => (make_double neg ip fd p.1, p.2))
          | _ => some (make_double neg ip fd 0, s3)
    | 'e' :: t2 =>
        (parse_exp_tail t2).map (fun p => (make_double neg ip [] p.1, p.2))
    | 'E' :: t2 =>
        (parse_exp_tail t2).map (fun p => (make_double neg ip [] p.1, p.2))
    | _ =>
        let n : ℤ := digits_to_nat ip
        some (Bson.int64 (if neg then -n else n), s2)

mutual

/-- Parse one JSON value. -/
def parse_json_value : Nat → List Char → Option (Bson × List Char)
  | 0, _ => none
  | fuel + 1, s =>
      match skip_ws s with
      | '\x7b' :: rest =>
          (parse_members fuel rest).map (fun p => (Bson.document p.1, p.2))
      | '[' :: rest =>
          (parse_elements fuel rest).map (fun p => (Bson.array p.1, p.2))
      | '"' :: rest =>
          (parse_string_lit (fuel + 1) rest).map (fun p => (Bson.string p.1, p.2))
      | 't' :: 'r' :: 'u' :: 'e' :: rest => some (Bson.boolean true, rest)
      | 'f' :: 'a' :: 'l' :: 's' :: 'e' :: rest => some (Bson.boolean false, rest)
      | 'n' :: 'u' :: 'l' :: 'l' :: rest => some (Bson.null, rest)
      | s2 => parse_number s2

/-- Parse one `"key": value` member. -/
def parse_member : Nat → List Char → Option ((String × Bson) × List Char)
  | 0, _ => none
  | fuel + 1, s =>
      match skip_ws s with
      | '"' :: rest =>
          match parse_string_lit (fuel + 1) rest with
          | none => none
          | some (k, r1) =>
              match skip_ws r1 with
              | ':' :: r2 =>
                  (parse_json_value fuel r2).map (fun p => ((k, p.1), p.2))
              | _ => none
      | _ => none

/-- Parse the members of an object (called right after `'{'`). -/
def parse_members : Nat → List Char → Option (List (String × Bson) × List Char)
  | 0, _ => none
  | fuel + 1, s =>
      match skip_ws s with
      | '\x7d' :: rest => some ([], rest)
      | _ =>
          match parse_member fuel s with
          | none => none
          | some (kv, r) =>
              (parse_members_rest fuel r).map (fun p => (kv :: p.1, p.2))

/-- Parse `, member`* `}` after a complete member. -/
def parse_members_rest : Nat → List Char → Option (List (String × Bson) × List Char)
  | 0, _ => none
  | fuel + 1, s =>
      match skip_ws s with
      | '\x7d' :: rest => some ([], rest)
      | ',' :: r2 =>
          match parse_member fuel r2 with
          | none => none
          | some (kv, r3) =>
              (parse_members_rest fuel r3).map (fun p => (kv :: p.1, p.2))
      | _ => none

/-- Parse the elements of an array (called right after `'['`). -/
def parse_elements : Nat → List Char → Option (List Bson × List Char)
  | 0, _ => none
  | fuel + 1, s =>
      match skip_ws s with
      | ']' :: rest => some ([], rest)
      | _ =>
          match parse_json_value fuel s with
          | none => none
          | some (v, r) =>
              (parse_elements_rest fuel r).map (fun p => (v :: p.1, p.2))

/-- Parse `, value`* `]` after a complete element. -/
def parse_elements_rest : Nat → List Char → Option (List Bson × List Char)
  | 0, _ => none
  | fuel + 1, s =>
      match skip_ws s with
      | ']' :: rest => some ([], rest)
      | ',' :: r2 =>
          match parse_json_value fuel r2 with
          | none => none
          | some (v, r3) =>
              (parse_elements_rest fuel r3).map (fun p => (v :: p.1, p.2))
      | _ => none

end

/-- `serde_json::from_str::<mongodb::bson::Document>`: parse a complete
JSON text whose top-level value is an object. -/
def parse_doc_from_str (s : String) : Except String BsonDoc :=
  match parse_json_value (4 * (s.data.length + 1)) s.data with
  | some (Bson.document d, rest) =>
      if skip_ws rest = [] then .ok d else .error "trailing characters"
  | some _ => .error "invalid type: not a document"
  | none => .error "invalid JSON in filter"

/-- The filter-text extraction of the `find` branch (`mongodb.rs` line 50):
`command.trim_start_matches("find(").trim_end_matches(')')`. -/
def code_find_filter (command : String) : String :=
  trim_end_matches_paren (trim_start_matches "find(" command)

/-- `MongoConnection::execute_mql` (`mongodb.rs` lines 33-116).
`cursor_docs` models the documents the external cursor yields for the
executed `find`; `count_reply` models the `count_documents` reply. -/
def execute_mql (mql : String) (cursor_docs : List BsonDoc) (count_reply : ℕ) :
    Except String QueryRow :=
  match splitn2_dot mql with
  | [_collection, rest] =>
      let command := trim_start rest
      if starts_with command "find(" then
        let filter_str := code_find_filter command
        if filter_str = "" ∨ filter_str = "\x7b\x7d" then .ok (mongo_find cursor_docs)
        else
          match parse_doc_from_str filter_str with
          | .error e => .error e
          | .ok _ => .ok (mongo_find cursor_docs)
      else if starts_with command "count()" then
        .ok ⟨["count"], ["Int64"], [[Json.numI (count_reply : ℤ)]]⟩
      else .error ("Unsupported MQL command: " ++ command)
  | _ => .error "Invalid MQL format. Use: collection.command"

/-- The characters following the first `'('`, when one exists. -/
def split_first_paren : List Char → Option (List Char)
  | [] => none
  | c :: rest => if c = '(' then some rest else split_first_paren rest

/-- Modelled from the spec (§4.3, claim C7): "filter is the substring
between the first `(` after `find` and the matching trailing `)`".  Returns
that substring, or `none` when the shape does not match. -/
def spec_find_filter (command : String) : Option String :=
  match command.data with
  | 'f' :: 'i' :: 'n' :: 'd' :: rest =>
      match split_first_paren rest with
      | none => none
      | some after =>
          if after.getLast? = some ')' then some (String.mk after.dropLast)
          else none
  | _ => none

/-- Modelled from the spec (§4.3, claim C7): the filter handling described
by the spec — spec-substring extraction, then empty or `{}` means match-all,
anything else must parse as a document literal. -/
def spec_find_parse (command : String) : Except String BsonDoc :=
  match spec_find_filter command with
  | none => .error "malformed find command"
  | some f =>
      if f = "" ∨ f = "\x7b\x7d" then .ok []
      else parse_doc_from_str f

/-! ## Key-value driver (`redis.rs`) -/

/-- The per-key replies `list_keys` receives from the external client
(`redis.rs` lines 40-91), after the `?` on each query succeeded: the `TYPE`
reply, the reply of the type-appropriate size command, and the `TTL` reply. -/
structure KeyProbe where
  key : String
  keyType : String
  sizeReply : ℕ
  ttlReply : ℤ
deriving DecidableEq, Repr

/-- The loop body of `list_keys` for one key (`redis.rs` lines 40-91):
a recognized type tag reports the size-command reply, anything else size 0;
a `TTL` reply of `-1` becomes `None`, anything else passes through. -/
def probe_info (p : KeyProbe) : String × String × ℕ × Option ℤ :=
  (p.key, p.keyType,
    (if p.keyType = "string" ∨ p.keyType = "list" ∨ p.keyType = "set" ∨
        p.keyType = "zset" ∨ p.keyType = "hash"
     then p.sizeReply else 0),
    (if p.ttlReply = -1 then none else some p.ttlReply))

/-- `RedisConnection::list_keys` (`redis.rs` lines 30-94): the loop pushing
one info tuple per enumerated key. -/
def list_keys (probes : List KeyProbe) : List (String × String × ℕ × Option ℤ) :=
  probes.foldl (fun acc p => acc ++ [probe_info p]) []

/-- The replies `get_value` receives from the external client for the
type-specific reads (`redis.rs` lines 96-205), each still `Except`-valued
because the code propagates a failed conversion with `?`. -/
structure RedisFetch where
  getReply : Except String String
  lrangeReply : Except String (List String)
  hgetallReply : Except String (List (String × String))
  smembersReply : Except String (List String)
  zrangeReply : Except String (List (String × F64))
deriving Repr

/-- The zset row construction (`redis.rs` lines 186-191): one member/score
row per entry; `none` models the panic of
`Number::from_f64(score).unwrap()` on a non-finite score. -/
def zset_rows : List (String × F64) → Option (List (List Json))
  | [] => some []
  | ms0 :: rest =>
      match json_number_from_f64 ms0.2 with
      | none => none
      | some j => (zset_rows rest).map (fun xs => [Json.str ms0.1, j] :: xs)

/-- `RedisConnection::get_value` (`redis.rs` lines 96-205), given the `TYPE`
reply and the fetched data.  The outer `Option` models divergence: `none` is
the panic of `Number::from_f64(score).unwrap()` on a non-finite zset score
(line 189); every normal path is `some`. -/
def get_value (key : String) (keyType : String) (f : RedisFetch) :
    Option (Except String QueryRow) :=
  match keyType with
  | "string" =>
      match f.getReply with
      | .error e => some (.error e)
      | .ok value =>
          some (.ok ⟨["key", "value"], ["String", "String"],
            [[Json.str key, Json.str value]]⟩)
  | "list" =>
      match f.lrangeReply with
      | .error e => some (.error e)
      | .ok values =>
          some (.ok ⟨["index", "value"], ["Int", "String"],
            values.enum.map (fun iv =>
              [Json.numI ((iv.1 : ℤ) + 1), Json.str iv.2])⟩)
  | "hash" =>
      match f.hgetallReply with
      | .error e => some (.error e)
      | .ok entries =>
          some (.ok ⟨["field", "value"], ["String", "String"],
            entries.map (fun fv => [Json.str fv.1, Json.str fv.2])⟩)
  | "set" =>
      match f.smembersReply with
      | .error e => some (.error e)
      | .ok members =>
          some (.ok ⟨["member"], ["String"],
            members.map (fun m => [Json.str m])⟩)
  | "zset" =>
      match f.zrangeReply with
      | .error e => some (.error e)
      | .ok members =>
          match zset_rows members with
          | none => none
          | some rows =>
              some (.ok ⟨["member", "score"], ["String", "Double"], rows⟩)
  | _ =>
      some (.ok ⟨["error"], ["String"],
        [[Json.str ("Unsupported type: " ++ keyType)]]⟩)

/-- Model of a reply value of the external redis protocol. -/
inductive RedisValue where
  | nil
  | int (i : ℤ)
  | data (s : String)
  | bulk (items : List RedisValue)
  | status (s : String)
  | okay
deriving Repr

/-- Model of the external redis-rs `FromRedisValue` conversion to `String`
used by `query::<String>`. -/
def string_from_redis_value : RedisValue → Except String String
  | .data s => .ok s
  | .okay => .ok "OK"
  | .status s => .ok s
  | _ => .error "Response was of incompatible type"

/-- `RedisConnection::execute_redis_cmd` (`redis.rs` lines 207-239).
`server` models the external store: it maps the argument list actually sent
(first token as command name, remaining tokens as literal arguments) to a
protocol-level reply or error. -/
def execute_redis_cmd (cmd : String)
    (server : List String → Except String RedisValue) : Except String QueryRow :=
  let parts := split_whitespace cmd
  if parts = [] then .error "Empty command"
  else
    match server parts with
    | .error e => .error e
    | .ok v =>
        match string_from_redis_value v with
        | .ok _ =>
            .ok ⟨["OK"], ["String"], [[Json.str "OK"]]⟩
        | .error e => .error e

/-! ## Connection registry and command surface (`main.rs`, `types.rs`) -/

/-- `ConnectionConfig` from `types.rs`. -/
structure ConnectionConfig where
  id : String
  name : String
  type : String
  host : String
  port : ℕ
  database : String
  username : String
  password : Option String
  ssl : Option Bool
deriving DecidableEq, Repr

/-- `DatabaseConnection` (`database.rs` lines 52-57); the pool handle of the
external sqlx client is modelled by a number. -/
structure DatabaseConnection where
  config : ConnectionConfig
  pool : ℕ
  db_type : String
deriving DecidableEq, Repr

/-- `MongoConnection` (`mongodb.rs` lines 6-11); client handle modelled by
a number. -/
structure MongoConnection where
  config : ConnectionConfig
  client : ℕ
deriving DecidableEq, Repr

/-- `RedisConnection` (`redis.rs` lines 4-8); client handle modelled by a
number. -/
structure RedisConnection where
  config : ConnectionConfig
  client : ℕ
deriving DecidableEq, Repr

/-- The backend tagged union `DbConnection` (`main.rs` lines 18-22). -/
inductive DbConnection where
  | sql (c : DatabaseConnection)
  | mongo (c : MongoConnection)
  | redis (c : RedisConnection)
deriving DecidableEq, Repr

/-- The registry: the `HashMap<String, DbConnection>` behind the mutex,
modelled as an association list with at most one entry per key. -/
abbrev Registry := List (String × DbConnection)

/-- `HashMap::insert`: replaces any existing entry for the key. -/
def hashmap_insert (m : Registry) (k : String) (v : DbConnection) : Registry :=
  (k, v) :: m.filter (fun p => p.1 ≠ k)

/-- `HashMap::remove`. -/
def hashmap_remove (m : Registry) (k : String) : Registry :=
  m.filter (fun p => p.1 ≠ k)

/-- `HashMap::get`/`get_mut`. -/
def hashmap_get (m : Registry) (k : String) : Option DbConnection :=
  (m.find? (fun p => p.1 == k)).map (fun p => p.2)

/-- `DatabaseConnection::new` (`database.rs` lines 60-97): the URL match
re-checks the backend kind; `native` models the external
`AnyPool::connect` outcome. -/
def database_connection_new (config : ConnectionConfig)
    (native : Except String ℕ) : Except String DatabaseConnection :=
  match config.type with
  | "sqlite" | "postgresql" | "mysql" | "mariadb" =>
      native.map (fun pool => ⟨config, pool, config.type⟩)
  | _ => .error ("Unsupported database type: " ++ config.type)

/-- `MongoConnection::new` (`mongodb.rs` lines 14-31); `native` models the
external client construction. -/
def mongo_connection_new (config : ConnectionConfig)
    (native : Except String ℕ) : Except String MongoConnection :=
  native.map (fun client => ⟨config, client⟩)

/-- `RedisConnection::new` (`redis.rs` lines 11-28); `native` models the
external open plus the `PING` liveness probe. -/
def redis_connection_new (config : ConnectionConfig)
    (native : Except String ℕ) : Except String RedisConnection :=
  native.map (fun client => ⟨config, client⟩)

/-- The connection-construction match of `connect_database`
(`main.rs` lines 86-103). -/
def make_connection (connection : ConnectionConfig)
    (native : Except String ℕ) : Except String DbConnection :=
  match connection.type with
  | "sqlite" | "postgresql" | "mysql" | "mariadb" =>
      (database_connection_new connection native).map DbConnection.sql
  | "mongodb" =>
      (mongo_connection_new connection native).map DbConnection.mongo
  | "redis" =>
      (redis_connection_new connection native).map DbConnection.redis
  | _ => .error ("Unsupported database type: " ++ connection.type)

/-- `connect_database` (`main.rs` lines 81-109): build the connection, then
insert it under the caller-chosen identifier. -/
def connect_database (st : Registry) (connection : ConnectionConfig)
    (native : Except String ℕ) : Except String Registry :=
  (make_connection connection native).map
    (fun conn => hashmap_insert st connection.id conn)

/-- `disconnect_database` (`main.rs` lines 111-119): remove the entry and
return success unconditionally. -/
def disconnect_database (st : Registry) (id : String) :
    Registry × Except String Unit :=
  (hashmap_remove st id, .ok ())

/-- The registry lookup every per-connection operation starts with
(`main.rs` lines 132, 177, 198): `"Not connected"` on an unknown id. -/
def lookup_connection (st : Registry) (id : String) : Except String DbConnection :=
  match hashmap_get st id with
  | some c => .ok c
  | none => .error "Not connected"

/-- Position of a key in a column list (first occurrence). -/
def col_index (k : String) : List String → ℕ
  | [] => 0
  | c :: cs => if c = k then 0 else col_index k cs + 1

/-! ### Concrete sample inputs used by witnesses and counterexamples -/

/-- A sample key-value connection request (first connect). -/
def sample_redis_config : ConnectionConfig :=
  ⟨"c1", "first", "redis", "localhost", 6379, "0", "", none, none⟩

/-- A sample document connection request (reconnect under the same id). -/
def sample_mongo_config : ConnectionConfig :=
  ⟨"c1", "second", "mongodb", "localhost", 27017, "db", "", none, none⟩

/-- A sample document carrying only the key `x`. -/
def sample_doc_one : BsonDoc :=
  [("_id", Bson.objectId "aaaaaaaaaaaaaaaaaaaaaaaa"), ("x", Bson.int32 1)]

/-- A sample document carrying the keys `x` and `y`. -/
def sample_doc_two : BsonDoc :=
  [("_id", Bson.objectId "bbbbbbbbbbbbbbbbbbbbbbbb"), ("x", Bson.int32 1),
    ("y", Bson.int32 2)]

/-- A sample rectangular native relational result set (one row, two cells). -/
def sample_any_rows : List AnyRow :=
  [[⟨⟨"a", "INT"⟩, .integer 1⟩, ⟨⟨"b", "TEXT"⟩, .text "x"⟩],
    [⟨⟨"a", "INT"⟩, .integer 2⟩, ⟨⟨"b", "TEXT"⟩, .null⟩]]

/-- A sample set of successful key-value fetch replies. -/
def sample_fetch : RedisFetch :=
  ⟨.ok "v", .ok [], .ok [], .ok [], .ok []⟩

/-! ## Theorems -/

/-- Claim C2 (confirmed): the value normalizer is total — for every
(declared native type label, native cell value) pair it returns exactly one
generic value, and running the enclosing query over such a cell yields that
value rather than an error; the document-side normalizer likewise always
yields a generic object for a document. -/
theorem normalizer_total :
    (∀ (t : String) (v : AnyValueKind) (nm : String),
      ∃ j, convert_to_json_value t v = j ∧
        execute_query [[⟨⟨nm, t⟩, v⟩]] =
          ⟨[nm], [debug_any_type_info t], [[j]]⟩) ∧
    (∀ d : BsonDoc, ∃ m, convert_bson_to_json d = Json.obj m) := by
  constructor
  · intro t v nm
    exact ⟨convert_to_json_value t v, rfl, rfl⟩
  · intro d
    exact ⟨build_json_map (convert_bson_entries d), rfl⟩

/-- Claim C3 (code bug): the null check at `database.rs` line 9 is
`row.try_get::<Option<i32>, _>(index).is_err()`, which is FALSE on a
database NULL (decoding NULL as `Option<i32>` succeeds with `None`) and
TRUE on a non-null text cell (decoding text as `i32` is a type mismatch).
Consequently a NULL in a TEXT column normalizes to the type-info debug
string instead of generic null, and a non-null TEXT cell normalizes to
generic null instead of its string value — contrary to rules 1 and 5 and
to the clear intent of the `is_null` variable. -/
theorem null_normalization_bug :
    convert_to_json_value "TEXT" AnyValueKind.null =
      Json.str (debug_any_type_info "TEXT") ∧
    convert_to_json_value "TEXT" (AnyValueKind.text "abc") = Json.null ∧
    Json.str (debug_any_type_info "TEXT") ≠ Json.null :=
  ⟨rfl, rfl, fun h => Json.noConfusion h⟩

/-- Claim C5 (confirmed): disconnect always returns success — also on an
unknown or already-removed identifier — and disconnecting twice in a row
returns success both times and leaves the same registry state. -/
theorem disconnect_idempotent (st : Registry) (id : String) :
    (disconnect_database st id).2 = .ok () ∧
    (disconnect_database (disconnect_database st id).1 id).2 = .ok () ∧
    (disconnect_database (disconnect_database st id).1 id).1 =
      (disconnect_database st id).1 := by
  refine ⟨rfl, rfl, ?_⟩
  simp only [disconnect_database, hashmap_remove]
  induction st with
  | nil => rfl
  | cons a l ih =>
      by_cases h : a.1 ≠ id <;> simp [h, ih]

/-- Claim C6, counterexample: a key whose native `TTL` reply is `-2` (the
protocol's missing-key sentinel, returned when the key vanished between
enumeration and the TTL query) is reported with the negative time-to-live
`-2`, because the code only maps the `-1` no-expiry sentinel to `None`. -/
theorem ttl_sentinel_cex :
    list_keys [⟨"k", "string", 3, -2⟩] = [("k", "string", 3, some (-2))] ∧
    (-2 : ℤ) < 0 :=
  ⟨rfl, by decide⟩

/-- Claim C6 (corrected): for every enumerated key, the reported
time-to-live is the absent-expiry marker exactly when the native reply is
the `-1` no-expiry sentinel, a key with expiry `N ≥ 0` seconds reports
exactly `N`, and the report is never negative provided the native reply is
not below `-1` (i.e. the key still existed when its TTL was fetched); the
`-2` missing-key sentinel passes through unchanged. -/
theorem ttl_sentinel_amended (probes : List KeyProbe) :
    list_keys probes = probes.map probe_info ∧
    ∀ p : KeyProbe,
      ((probe_info p).2.2.2 = none ↔ p.ttlReply = -1) ∧
      (0 ≤ p.ttlReply → (probe_info p).2.2.2 = some p.ttlReply) ∧
      (-1 ≤ p.ttlReply → ∀ n, (probe_info p).2.2.2 = some n → 0 ≤ n) := by
  constructor
  · have h : ∀ (l : List KeyProbe) (acc : List (String × String × ℕ × Option ℤ)),
        l.foldl (fun acc p => acc ++ [probe_info p]) acc = acc ++ l.map probe_info := by
      intro l
      induction l with
      | nil => intro acc; simp
      | cons p l ih => intro acc; simp [ih]
    simpa using h probes []
  · intro p
    by_cases h : p.ttlReply = -1
    · refine ⟨by simp [probe_info, h], ?_, ?_⟩
      · intro h0; omega
      · intro _ n hn; simp [probe_info, h] at hn
    · refine ⟨by simp [probe_info, h], ?_, ?_⟩
      · intro _; simp [probe_info, h]
      · intro h1 n hn
        simp [probe_info, h] at hn
        omega

/-- Witness for C6: a key with expiry 42 seconds reports exactly 42. -/
theorem ttl_sentinel_amended_witness :
    (0 : ℤ) ≤ 42 ∧ (probe_info ⟨"k", "string", 3, 42⟩).2.2.2 = some 42 :=
  ⟨by decide, ((ttl_sentinel_amended []).2 ⟨"k", "string", 3, 42⟩).2.1 (by decide)⟩

/-- Claim C9 (confirmed): a key whose `TYPE` reply is none of the five
recognized tags makes `get_value` return a SUCCESSFUL result with the
single column `error` and one row carrying `Unsupported type: <tag>`. -/
theorem unsupported_type_row (key keyType : String) (f : RedisFetch)
    (h : keyType ∉ ["string", "list", "hash", "set", "zset"]) :
    get_value key keyType f =
      some (.ok ⟨["error"], ["String"],
        [[Json.str ("Unsupported type: " ++ keyType)]]⟩) := by
  simp only [List.mem_cons, List.mem_singleton, not_or] at h
  obtain ⟨h1, h2, h3, h4, h5, -⟩ := h
  unfold get_value
  split <;> simp_all

/-- Witness for C9: the unrecognized tag `stream`. -/
theorem unsupported_type_row_witness :
    ("stream" ∉ ["string", "list", "hash", "set", "zset"]) ∧
    get_value "k" "stream" ⟨.ok "", .ok [], .ok [], .ok [], .ok []⟩ =
      some (.ok ⟨["error"], ["String"],
        [[Json.str ("Unsupported type: " ++ "stream")]]⟩) :=
  ⟨by decide, unsupported_type_row "k" "stream" _ (by decide)⟩

/-- Claim C8 (confirmed): for a generic key-value command string, the
whitespace tokens (first = command name, rest = literal positional
arguments) are exactly what is sent — the outcome depends on the external
store only through its reply to that token list; an empty command is
rejected; a protocol-level error is surfaced unchanged; and every
successful execution returns the single-row single-column `OK` marker
result. -/
theorem redis_cmd_contract (cmd : String)
    (server1 server2 : List String → Except String RedisValue) :
    (split_whitespace cmd = [] →
      execute_redis_cmd cmd server1 = .error "Empty command") ∧
    (server1 (split_whitespace cmd) = server2 (split_whitespace cmd) →
      execute_redis_cmd cmd server1 = execute_redis_cmd cmd server2) ∧
    (∀ e, split_whitespace cmd ≠ [] →
      server1 (split_whitespace cmd) = .error e →
      execute_redis_cmd cmd server1 = .error e) ∧
    (∀ q, execute_redis_cmd cmd server1 = .ok q →
      q = ⟨["OK"], ["String"], [[Json.str "OK"]]⟩) := by
  unfold execute_redis_cmd
  by_cases hp : split_whitespace cmd = []
  · simp [hp]
  · simp only [hp, if_neg hp, ite_false, ne_eq, not_false_iff]
    refine ⟨fun h => h.elim, ?_, ?_, ?_⟩
    · intro heq; rw [heq]
    · intro e _ herr; rw [herr]
    · intro q hq
      rcases hs : server1 (split_whitespace cmd) with e | v
      · rw [hs] at hq; simp at hq
      · rw [hs] at hq
        rcases hc : string_from_redis_value v with e2 | s2
        · simp [hc] at hq
        · simp [hc] at hq
          exact hq.symm

/-- Witness for C8: a protocol error is surfaced, and two stores agreeing
on the reply to the token list of `GET k` induce the same outcome. -/
theorem redis_cmd_contract_witness :
    execute_redis_cmd "PING" (fun _ => .error "boom") = .error "boom" ∧
    execute_redis_cmd "GET k"
        (fun args => if args = ["GET", "k"] then .ok (.data "v") else .error "x") =
      execute_redis_cmd "GET k" (fun _ => .ok (.data "v")) :=
  ⟨(redis_cmd_contract "PING" (fun _ => .error "boom") (fun _ => .error "boom")).2.2.1
      "boom" (by decide) rfl,
    (redis_cmd_contract "GET k"
        (fun args => if args = ["GET", "k"] then .ok (.data "v") else .error "x")
        (fun _ => .ok (.data "v"))).2.1 rfl⟩

/-- Claim C4 (confirmed): connecting a second time under the same
identifier leaves exactly one registry entry for that identifier, and that
entry is the connection built from the second request — the lookup every
subsequent operation (`execute_query`, `get_schema`, `execute_ddl`)
performs observes only it. -/
theorem replace_on_reconnect (st : Registry) (c1 c2 : ConnectionConfig)
    (n1 n2 : Except String ℕ) (st1 st2 : Registry)
    (hid : c1.id = c2.id)
    (h1 : connect_database st c1 n1 = .ok st1)
    (h2 : connect_database st1 c2 n2 = .ok st2) :
    (st2.filter (fun p => p.1 = c2.id)).length = 1 ∧
    ∀ conn, make_connection c2 n2 = .ok conn →
      lookup_connection st2 c2.id = .ok conn := by
  unfold connect_database at h2
  rcases hm : make_connection c2 n2 with e | conn2
  · rw [hm] at h2; exact absurd h2 (by simp [Except.map])
  · rw [hm] at h2
    simp only [Except.map] at h2
    have hst2 : st2 = hashmap_insert st1 c2.id conn2 := (Except.ok.inj h2).symm
    subst hst2
    constructor
    · simp only [hashmap_insert, List.filter_cons]
      have hin : (st1.filter (fun p => p.1 ≠ c2.id)).filter
          (fun p => p.1 = c2.id) = [] := by
        rw [List.filter_eq_nil_iff]
        intro p hp
        have hne := List.of_mem_filter hp
        simp at hne ⊢
        exact hne
      simp [hin]
    · intro conn hconn
      have : conn = conn2 := (Except.ok.inj hconn).symm
      subst this
      simp [lookup_connection, hashmap_get, hashmap_insert]

/-! ### Column accretion lemmas (document `find`) -/

/-- Accretion only appends: the final column and type lists extend the
initial ones. -/
theorem accrete_extends (es : List (String × Json)) :
    ∀ c t : List String, ∃ ce te,
      accrete (c, t) es = (c ++ ce, t ++ te) := by
  induction es with
  | nil => intro c t; exact ⟨[], [], by simp [accrete]⟩
  | cons kv es ih =>
      intro c t
      by_cases h1 : kv.1 = "_id"
      · simpa [accrete, h1] using ih c t
      · by_cases h2 : kv.1 ∈ c
        · simpa [accrete, h1, h2] using ih c t
        · obtain ⟨ce, te, h⟩ := ih (c ++ [kv.1]) (t ++ [mongo_type_to_string kv.2])
          exact ⟨kv.1 :: ce, mongo_type_to_string kv.2 :: te,
            by simp [accrete, h1, h2, h]⟩

/-- Accretion keeps the column and type lists the same length. -/
theorem accrete_len (es : List (String × Json)) :
    ∀ c t : List String, c.length = t.length →
      (accrete (c, t) es).1.length = (accrete (c, t) es).2.length := by
  induction es with
  | nil => intro c t h; simpa [accrete] using h
  | cons kv es ih =>
      intro c t h
      by_cases h1 : kv.1 = "_id"
      · simpa [accrete, h1] using ih c t h
      · by_cases h2 : kv.1 ∈ c
        · simpa [accrete, h1, h2] using ih c t h
        · have h3 : (c ++ [kv.1]).length =
              (t ++ [mongo_type_to_string kv.2]).length := by simp [h]
          simpa [accrete, h1, h2] using ih _ _ h3

/-- A key other than `_id` ends up among the columns exactly when it was
already there or occurs among the processed entries. -/
theorem accrete_mem (es : List (String × Json)) :
    ∀ (c t : List String) (k : String), k ≠ "_id" →
      (k ∈ (accrete (c, t) es).1 ↔ k ∈ c ∨ k ∈ es.map Prod.fst) := by
  induction es with
  | nil => intro c t k _; simp [accrete]
  | cons kv es ih =>
      intro c t k hk
      by_cases h1 : kv.1 = "_id"
      · have hne : k ≠ kv.1 := by rw [h1]; exact hk
        rw [show accrete (c, t) (kv :: es) = accrete (c, t) es by
            simp [accrete, h1],
          ih c t k hk]
        simp [hne]
      · by_cases h2 : kv.1 ∈ c
        · rw [show accrete (c, t) (kv :: es) = accrete (c, t) es by
              simp [accrete, h1, h2],
            ih c t k hk]
          simp only [List.map_cons, List.mem_cons]
          constructor
          · rintro (h | h)
            · exact Or.inl h
            · exact Or.inr (Or.inr h)
          · rintro (h | h | h)
            · exact Or.inl h
            · exact Or.inl (h ▸ h2)
            · exact Or.inr h
        · rw [show accrete (c, t) (kv :: es) =
              accrete (c ++ [kv.1], t ++ [mongo_type_to_string kv.2]) es by
              simp [accrete, h1, h2],
            ih _ _ k hk]
          simp only [List.mem_append, List.mem_singleton, List.map_cons,
            List.mem_cons]
          tauto

/-- First occurrence position in a list the key was appended to. -/
theorem col_index_append (c rest : List String) (k : String) (h : k ∉ c) :
    col_index k (c ++ k :: rest) = c.length := by
  induction c with
  | nil => simp [col_index]
  | cons a c ih =>
      have hak : a ≠ k := fun e => h (e ▸ List.mem_cons_self a c)
      have hkc : k ∉ c := fun hm => h (List.mem_cons_of_mem a hm)
      simp [col_index, hak, ih hkc]

/-- Reading a list right after an appended block. -/
theorem getElem_append_len (t : List String) (τ : String) (rest : List String) :
    (t ++ τ :: rest)[t.length]? = some τ := by
  induction t with
  | nil => simp
  | cons a t ih => simpa using ih

/-- A key first observed among the entries (and absent from the current
columns) ends up among the columns, with its type label read off the entry
value at the key's column position. -/
theorem accrete_assign (es : List (String × Json)) :
    ∀ (c t : List String) (k : String) (v : Json),
      c.length = t.length → k ≠ "_id" → k ∉ c →
      obj_get es k = some v →
      k ∈ (accrete (c, t) es).1 ∧
      (accrete (c, t) es).2[col_index k (accrete (c, t) es).1]? =
        some (mongo_type_to_string v) := by
  induction es with
  | nil => intro c t k v _ _ _ hlook; simp [obj_get] at hlook
  | cons kv es ih =>
      intro c t k v hlen hk hkc hlook
      by_cases hkv : kv.1 = k
      · have hfind : (kv.1 == k) = true := by simp [hkv]
        have hv : kv.2 = v := by
          simp only [obj_get, List.find?, hfind] at hlook
          simpa using hlook
        have h1 : kv.1 ≠ "_id" := by rw [hkv]; exact hk
        have h2 : kv.1 ∉ c := by rw [hkv]; exact hkc
        obtain ⟨ce, te, happ⟩ :=
          accrete_extends es (c ++ [kv.1]) (t ++ [mongo_type_to_string kv.2])
        have hstep : accrete (c, t) (kv :: es) =
            accrete (c ++ [kv.1], t ++ [mongo_type_to_string kv.2]) es := by
          simp [accrete, h1, h2]
        have hcols : (accrete (c, t) (kv :: es)).1 = c ++ k :: ce := by
          rw [hstep, happ]; simp [hkv]
        have htys : (accrete (c, t) (kv :: es)).2 =
            t ++ mongo_type_to_string v :: te := by
          rw [hstep, happ]; simp [hv]
        constructor
        · rw [hcols]
          exact List.mem_append.mpr (Or.inr (List.mem_cons_self k _))
        · rw [hcols, htys, col_index_append c ce k hkc, hlen,
            getElem_append_len]
      · have hfind : (kv.1 == k) = false := by simp [hkv]
        have hlook2 : obj_get es k = some v := by
          simpa only [obj_get, List.find?, hfind] using hlook
        by_cases h1 : kv.1 = "_id"
        · rw [show accrete (c, t) (kv :: es) = accrete (c, t) es by
              simp [accrete, h1]]
          exact ih c t k v hlen hk hkc hlook2
        · by_cases h2 : kv.1 ∈ c
          · rw [show accrete (c, t) (kv :: es) = accrete (c, t) es by
                simp [accrete, h1, h2]]
            exact ih c t k v hlen hk hkc hlook2
          · rw [show accrete (c, t) (kv :: es) =
                accrete (c ++ [kv.1], t ++ [mongo_type_to_string kv.2]) es by
                simp [accrete, h1, h2]]
            have hlen2 : (c ++ [kv.1]).length =
                (t ++ [mongo_type_to_string kv.2]).length := by simp [hlen]
            have hkc2 : k ∉ c ++ [kv.1] := by
              intro hm
              rcases List.mem_append.mp hm with hm | hm
              · exact hkc hm
              · exact hkv (List.mem_singleton.mp hm).symm
            exact ih _ _ k v hlen2 hk hkc2 hlook2

/-! ### The `find` fold -/

/-- Each processed document only extends the column and type lists. -/
theorem find_fold_extends (ds : List BsonDoc) :
    ∀ st : QueryRow, st.columns <+: (ds.foldl find_step st).columns ∧
      st.types <+: (ds.foldl find_step st).types := by
  induction ds with
  | nil => intro st; exact ⟨List.prefix_rfl, List.prefix_rfl⟩
  | cons d ds ih =>
      intro st
      obtain ⟨ce, te, happ⟩ :=
        accrete_extends (bson_obj_entries d) st.columns st.types
      have hc : (find_step st d).columns = st.columns ++ ce := by
        simp [find_step, happ]
      have ht : (find_step st d).types = st.types ++ te := by
        simp [find_step, happ]
      rw [List.foldl_cons]
      exact ⟨(hc ▸ ⟨ce, rfl⟩ : st.columns <+: (find_step st d).columns).trans
          (ih (find_step st d)).1,
        (ht ▸ ⟨te, rfl⟩ : st.types <+: (find_step st d).types).trans
          (ih (find_step st d)).2⟩

/-- The fold keeps columns and types the same length. -/
theorem find_fold_len (ds : List BsonDoc) :
    ∀ st : QueryRow, st.columns.length = st.types.length →
      (ds.foldl find_step st).columns.length =
        (ds.foldl find_step st).types.length := by
  induction ds with
  | nil => intro st h; simpa using h
  | cons d ds ih =>
      intro st h
      rw [List.foldl_cons]
      apply ih
      simpa [find_step] using
        accrete_len (bson_obj_entries d) st.columns st.types h

/-- Every accumulated row is at most as wide as the final column list. -/
theorem find_fold_rows_le (ds : List BsonDoc) :
    ∀ st : QueryRow, (∀ r ∈ st.rows, r.length ≤ st.columns.length) →
      ∀ r ∈ (ds.foldl find_step st).rows,
        r.length ≤ (ds.foldl find_step st).columns.length := by
  induction ds with
  | nil => intro st h; simpa using h
  | cons d ds ih =>
      intro st h
      rw [List.foldl_cons]
      apply ih
      intro r hr
      obtain ⟨ce, te, happ⟩ :=
        accrete_extends (bson_obj_entries d) st.columns st.types
      have hc : (find_step st d).columns = st.columns ++ ce := by
        simp [find_step, happ]
      have hrows : (find_step st d).rows = st.rows ++
          [(accrete (st.columns, st.types) (bson_obj_entries d)).1.map
            (fun col => if col = "_id" then Json.str (doc_id_hex d)
              else (obj_get (bson_obj_entries d) col).getD Json.null)] := by
        simp [find_step]
      rw [hrows] at hr
      rcases List.mem_append.mp hr with hr | hr
      · calc r.length ≤ st.columns.length := h r hr
          _ ≤ (find_step st d).columns.length := by simp [hc]
      · rw [List.mem_singleton.mp hr]
        simp [hc, happ]

/-- Membership in the fold's columns: a key other than `_id` is a column
exactly when some processed document carries it. -/
theorem find_fold_mem (ds : List BsonDoc) :
    ∀ (st : QueryRow) (k : String), k ≠ "_id" →
      (k ∈ (ds.foldl find_step st).columns ↔
        k ∈ st.columns ∨ ∃ d ∈ ds, k ∈ (bson_obj_entries d).map Prod.fst) := by
  induction ds with
  | nil => intro st k _; simp
  | cons d ds ih =>
      intro st k hk
      rw [List.foldl_cons, ih (find_step st d) k hk]
      rw [show (find_step st d).columns =
          (accrete (st.columns, st.types) (bson_obj_entries d)).1 from rfl,
        accrete_mem (bson_obj_entries d) st.columns st.types k hk]
      simp only [List.mem_cons]
      constructor
      · rintro ((h | h) | h)
        · exact Or.inl h
        · exact Or.inr ⟨d, Or.inl rfl, h⟩
        · obtain ⟨d2, hd2, hkd2⟩ := h
          exact Or.inr ⟨d2, Or.inr hd2, hkd2⟩
      · rintro (h | ⟨d2, (hd2 | hd2), hkd2⟩)
        · exact Or.inl (Or.inl h)
        · exact Or.inl (Or.inr (hd2 ▸ hkd2))
        · exact Or.inr ⟨d2, hd2, hkd2⟩

/-- Witness for C4: reconnecting `c1` as a document connection leaves one
entry, holding the second connection. -/
theorem replace_on_reconnect_witness :
    (([("c1", DbConnection.mongo ⟨sample_mongo_config, 2⟩)] : Registry).filter
        (fun p => p.1 = sample_mongo_config.id)).length = 1 ∧
    lookup_connection [("c1", DbConnection.mongo ⟨sample_mongo_config, 2⟩)]
        sample_mongo_config.id =
      .ok (DbConnection.mongo ⟨sample_mongo_config, 2⟩) := by
  have h := replace_on_reconnect [] sample_redis_config sample_mongo_config
      (.ok 1) (.ok 2)
      [("c1", DbConnection.redis ⟨sample_redis_config, 1⟩)]
      [("c1", DbConnection.mongo ⟨sample_mongo_config, 2⟩)]
      rfl rfl rfl
  exact ⟨h.1, h.2 _ rfl⟩

/-- Claim C10 (confirmed): in every document `find` result the identifier
column `_id` occupies position 0 with the fixed label `ObjectId`; already
assigned columns and labels are never changed by later documents (each
document only extends them); a key first carried by document `d` (and not
yet a column) becomes a column whose label is computed from `d`'s value for
it; and a key is a column exactly when some processed document carries it
(so the label comes from the first such document). -/
theorem find_column_type_assignment :
    (∀ docs : List BsonDoc, (mongo_find docs).columns.head? = some "_id" ∧
      (mongo_find docs).types.head? = some "ObjectId") ∧
    (∀ docs rest : List BsonDoc,
      (mongo_find docs).columns <+: (mongo_find (docs ++ rest)).columns ∧
      (mongo_find docs).types <+: (mongo_find (docs ++ rest)).types) ∧
    (∀ (docs : List BsonDoc) (d : BsonDoc) (k : String) (v : Json),
      k ≠ "_id" → k ∉ (mongo_find docs).columns →
      obj_get (bson_obj_entries d) k = some v →
      k ∈ (mongo_find (docs ++ [d])).columns ∧
      (mongo_find (docs ++ [d])).types[col_index k
          (mongo_find (docs ++ [d])).columns]? =
        some (mongo_type_to_string v)) ∧
    (∀ (docs : List BsonDoc) (k : String), k ≠ "_id" →
      (k ∈ (mongo_find docs).columns ↔
        ∃ d ∈ docs, k ∈ (bson_obj_entries d).map Prod.fst)) := by
  refine ⟨?_, ?_, ?_, ?_⟩
  · intro docs
    obtain ⟨hc, ht⟩ := find_fold_extends docs ⟨["_id"], ["ObjectId"], []⟩
    obtain ⟨ce, hce⟩ := hc
    obtain ⟨te, hte⟩ := ht
    constructor
    · rw [mongo_find, ← hce]; rfl
    · rw [mongo_find, ← hte]; rfl
  · intro docs rest
    have h : mongo_find (docs ++ rest) = rest.foldl find_step (mongo_find docs) := by
      rw [mongo_find, mongo_find, List.foldl_append]
    rw [h]
    exact find_fold_extends rest (mongo_find docs)
  · intro docs d k v hk hkc hlook
    have hstep : mongo_find (docs ++ [d]) = find_step (mongo_find docs) d := by
      rw [mongo_find, mongo_find, List.foldl_append, List.foldl_cons,
        List.foldl_nil]
    have hlen : (mongo_find docs).columns.length =
        (mongo_find docs).types.length :=
      find_fold_len docs ⟨["_id"], ["ObjectId"], []⟩ rfl
    have h := accrete_assign (bson_obj_entries d) (mongo_find docs).columns
      (mongo_find docs).types k v hlen hk hkc hlook
    rw [hstep]
    exact h
  · intro docs k hk
    have h := find_fold_mem docs ⟨["_id"], ["ObjectId"], []⟩ k hk
    rw [mongo_find]
    rw [h]
    simp [hk]

/-- Witness for C10: on the empty history, a document carrying `a : 1`
first introduces the column `a` with label `Int64`. -/
theorem find_column_type_assignment_witness :
    (("a" : String) ≠ "_id") ∧
    ("a" ∉ (mongo_find []).columns) ∧
    obj_get (bson_obj_entries [("a", Bson.int32 1)]) "a" = some (Json.numI 1) ∧
    ("a" ∈ (mongo_find ([] ++ [[("a", Bson.int32 1)]])).columns ∧
      (mongo_find ([] ++ [[("a", Bson.int32 1)]])).types[col_index "a"
          (mongo_find ([] ++ [[("a", Bson.int32 1)]])).columns]? =
        some (mongo_type_to_string (Json.numI 1))) :=
  ⟨by decide, by decide, rfl,
    find_column_type_assignment.2.2.1 [] [("a", Bson.int32 1)] "a"
      (Json.numI 1) (by decide) (by decide) rfl⟩

/-- Claim C1, counterexample: a two-document `find` where the second
document first introduces the key `y` yields a result with 3 columns whose
first row has only 2 cells — rows emitted before a key's first appearance
are never widened, so `len(row) = len(columns)` fails. -/
theorem find_row_width_cex :
    (execute_mql "c.find(\x7b\x7d)" [sample_doc_one, sample_doc_two] 0).map
        (fun q => (q.columns.length, q.rows.map List.length)) =
      .ok (3, [2, 3]) ∧
    (2 : ℕ) ≠ 3 :=
  ⟨rfl, by decide⟩

/-- Every row the zset read builds is a member/score pair. -/
theorem zset_rows_len (members : List (String × F64)) :
    ∀ rows, zset_rows members = some rows →
      ∀ r ∈ rows, r.length = 2 := by
  induction members with
  | nil =>
      intro rows h
      simp only [zset_rows, Option.some.injEq] at h
      subst h
      intro r hr
      simp at hr
  | cons m ms ih =>
      intro rows h
      rcases hm : json_number_from_f64 m.2 with _ | j
      · simp [zset_rows, hm] at h
      · rcases hms : zset_rows ms with _ | xs
        · simp [zset_rows, hm, hms] at h
        · simp only [zset_rows, hm, hms, Option.map_some',
            Option.some.injEq] at h
          subst h
          intro r hr
          rcases List.mem_cons.mp hr with hr | hr
          · subst hr; rfl
          · exact ih xs hms r hr

/-- Claim C1 (corrected): each relational result row (over a rectangular
native result set), each key-value `get_value` result row, and each
`execute_redis_cmd` result row is exactly as wide as the column list; each
document `execute_mql` result row (`find` or `count`) is at most as wide —
equality can fail only for `find` rows emitted before a later document
first introduced a column. -/
theorem row_width_invariant_amended :
    (∀ rows : List AnyRow, (∀ r ∈ rows, r.length = (rows.headD []).length) →
      ∀ r ∈ (execute_query rows).rows,
        r.length = (execute_query rows).columns.length) ∧
    (∀ (mql : String) (docs : List BsonDoc) (cnt : ℕ) (q : QueryRow),
      execute_mql mql docs cnt = .ok q →
      ∀ r ∈ q.rows, r.length ≤ q.columns.length) ∧
    (∀ (key keyType : String) (f : RedisFetch) (q : QueryRow),
      get_value key keyType f = some (.ok q) →
      ∀ r ∈ q.rows, r.length = q.columns.length) ∧
    (∀ (cmd : String) (server : List String → Except String RedisValue)
      (q : QueryRow), execute_redis_cmd cmd server = .ok q →
      ∀ r ∈ q.rows, r.length = q.columns.length) := by
  refine ⟨?_, ?_, ?_, ?_⟩
  · intro rows h r hr
    simp only [execute_query, List.mem_map] at hr
    obtain ⟨r0, hr0, rfl⟩ := hr
    simp only [execute_query, List.length_map]
    exact h r0 hr0
  · have hfind : ∀ (docs : List BsonDoc),
        ∀ r ∈ (mongo_find docs).rows,
          r.length ≤ (mongo_find docs).columns.length := by
      intro docs
      exact find_fold_rows_le docs ⟨["_id"], ["ObjectId"], []⟩ (by simp)
    intro mql docs cnt q hq
    unfold execute_mql at hq
    split at hq
    · simp only [] at hq
      split at hq
      · split at hq
        · have := Except.ok.inj hq
          subst this
          exact hfind docs
        · split at hq
          · exact Except.noConfusion hq
          · have := Except.ok.inj hq
            subst this
            exact hfind docs
      · split at hq
        · have := Except.ok.inj hq
          subst this
          intro r hr
          simp only [List.mem_singleton] at hr
          subst hr
          simp
        · exact Except.noConfusion hq
    · exact Except.noConfusion hq
  · intro key keyType f q hq
    unfold get_value at hq
    split at hq
    · split at hq
      · simp at hq
      · obtain rfl := Except.ok.inj (Option.some.inj hq)
        intro r hr
        simp only [List.mem_singleton] at hr
        subst hr; rfl
    · split at hq
      · simp at hq
      · obtain rfl := Except.ok.inj (Option.some.inj hq)
        intro r hr
        simp only [List.mem_map] at hr
        obtain ⟨iv, _, rfl⟩ := hr
        rfl
    · split at hq
      · simp at hq
      · obtain rfl := Except.ok.inj (Option.some.inj hq)
        intro r hr
        simp only [List.mem_map] at hr
        obtain ⟨fv, _, rfl⟩ := hr
        rfl
    · split at hq
      · simp at hq
      · obtain rfl := Except.ok.inj (Option.some.inj hq)
        intro r hr
        simp only [List.mem_map] at hr
        obtain ⟨m, _, rfl⟩ := hr
        rfl
    · split at hq
      · simp at hq
      · rename_i members hzr
        rcases hrows : zset_rows members with _ | rows
        · rw [hrows] at hq
          exact Option.noConfusion hq
        · rw [hrows] at hq
          obtain rfl := Except.ok.inj (Option.some.inj hq)
          intro r hr
          exact zset_rows_len members rows hrows r hr
    · obtain rfl := Except.ok.inj (Option.some.inj hq)
      intro r hr
      simp only [List.mem_singleton] at hr
      subst hr; rfl
  · intro cmd server q hq
    unfold execute_redis_cmd at hq
    simp only [] at hq
    by_cases hp : split_whitespace cmd = []
    · rw [if_pos hp] at hq
      exact Except.noConfusion hq
    · rw [if_neg hp] at hq
      rcases hs : server (split_whitespace cmd) with e | v
      · simp [hs] at hq
      · simp only [hs] at hq
        rcases hc : string_from_redis_value v with e2 | s2
        · simp [hc] at hq
        · simp only [hc] at hq
          have := Except.ok.inj hq
          subst this
          intro r hr
          simp only [List.mem_singleton] at hr
          subst hr; rfl

/-- Witness for C1: the amended bounds applied to a concrete rectangular
relational result, a concrete `count`, a concrete string-key read, and a
concrete generic command. -/
theorem row_width_invariant_amended_witness :
    (∀ r ∈ sample_any_rows, r.length = (sample_any_rows.headD []).length) ∧
    (∀ r ∈ (execute_query sample_any_rows).rows,
      r.length = (execute_query sample_any_rows).columns.length) ∧
    (∀ r ∈ (⟨["count"], ["Int64"], [[Json.numI 5]]⟩ : QueryRow).rows,
      r.length ≤ (⟨["count"], ["Int64"], [[Json.numI 5]]⟩ : QueryRow).columns.length) ∧
    (∀ r ∈ (⟨["key", "value"], ["String", "String"],
        [[Json.str "k", Json.str "v"]]⟩ : QueryRow).rows,
      r.length = (⟨["key", "value"], ["String", "String"],
        [[Json.str "k", Json.str "v"]]⟩ : QueryRow).columns.length) ∧
    (∀ r ∈ (⟨["OK"], ["String"], [[Json.str "OK"]]⟩ : QueryRow).rows,
      r.length = (⟨["OK"], ["String"], [[Json.str "OK"]]⟩ : QueryRow).columns.length) :=
  ⟨by decide,
    row_width_invariant_amended.1 sample_any_rows (by decide),
    row_width_invariant_amended.2.1 "c.count()" [] 5 _ rfl,
    row_width_invariant_amended.2.2.1 "k" "string" sample_fetch _ rfl,
    row_width_invariant_amended.2.2.2 "PING" (fun _ => .ok RedisValue.okay) _ rfl⟩

/-- Claim C7, counterexample: on the command `find(find({}))` the spec's
extraction rule (substring between the first `(` after `find` and the
matching trailing `)`) yields the filter text `find({})`, which fails to
parse as a document literal — so per the claim the whole call must error.
The code instead strips the repeated `find(` prefix and every trailing
`)`, obtains `{}`, and succeeds with a match-all find. -/
theorem find_filter_extraction_cex :
    execute_mql "users.find(find(\x7b\x7d))" [] 0 =
      .ok ⟨["_id"], ["ObjectId"], []⟩ ∧
    spec_find_filter "find(find(\x7b\x7d))" = some "find(\x7b\x7d)" ∧
    (spec_find_parse "find(find(\x7b\x7d))").isOk = false :=
  ⟨rfl, rfl, rfl⟩

/-- Claim C7 (corrected): the filter is the text obtained by stripping
every leading repetition of `find(` and every trailing `)` from the
command; an empty filter or the literal `{}` yields a match-all find; any
other filter text must parse as a document literal, a parse failure making
the whole call return that error and a parse success yielding the find
result. -/
theorem find_filter_extraction_amended (mql : String) (docs : List BsonDoc)
    (cnt : ℕ) (coll rest : String)
    (hsplit : splitn2_dot mql = [coll, rest])
    (hfind : starts_with (trim_start rest) "find(" = true) :
    ((code_find_filter (trim_start rest) = "" ∨
        code_find_filter (trim_start rest) = "\x7b\x7d") →
      execute_mql mql docs cnt = .ok (mongo_find docs)) ∧
    (¬(code_find_filter (trim_start rest) = "" ∨
        code_find_filter (trim_start rest) = "\x7b\x7d") →
      (∀ e, parse_doc_from_str (code_find_filter (trim_start rest)) =
          .error e → execute_mql mql docs cnt = .error e) ∧
      (∀ d, parse_doc_from_str (code_find_filter (trim_start rest)) =
          .ok d → execute_mql mql docs cnt = .ok (mongo_find docs))) := by
  constructor
  · intro hf
    unfold execute_mql
    rw [hsplit]
    simp only []
    rw [if_pos hfind, if_pos hf]
  · intro hf
    constructor
    · intro e he
      unfold execute_mql
      rw [hsplit]
      simp only []
      rw [if_pos hfind, if_neg hf, he]
    · intro d hd
      unfold execute_mql
      rw [hsplit]
      simp only []
      rw [if_pos hfind, if_neg hf, hd]

/-- Witness for C7: `c.find({"a": 1})` — the extracted filter parses, so
the call succeeds with the find result. -/
theorem find_filter_extraction_amended_witness :
    splitn2_dot "c.find(\x7b\"a\": 1\x7d)" = ["c", "find(\x7b\"a\": 1\x7d)"] ∧
    starts_with (trim_start "find(\x7b\"a\": 1\x7d)") "find(" = true ∧
    execute_mql "c.find(\x7b\"a\": 1\x7d)" [] 0 = .ok (mongo_find []) :=
  ⟨rfl, rfl,
    ((find_filter_extraction_amended "c.find(\x7b\"a\": 1\x7d)" [] 0 "c"
        "find(\x7b\"a\": 1\x7d)" rfl rfl).2 (by decide)).2
      [("a", Bson.int64 1)] rfl⟩

end DbClient
